import Mathlib

/-!
Verification of the fullrmc incremental pair-correlation constraint engine
(`Constraints/PairDistributionConstraints.py` and
`Constraints/StructureFactorConstraints.py`).

The two constraint classes share the same transactional structure; the
embedding below follows `PairDistributionConstraint` line by line (the
`StructureFactorConstraint` methods cited by the claims are verbatim mirrors
up to the extra sine transform, which is embedded separately for the
`_get_Sq_from_Gr` claims).

Modelling conventions:
* numpy float arrays are modelled over `ℚ` (the claims are about exact
  algebraic identities, never about rounding);
* element identifiers are natural numbers equal to their index in
  `engine.elements`, so `elements.index(e) = e`;
* per-element populations (`engine.numberOfAtomsPerElement`, a dict of Python
  ints) are `Nat → Int`;
* a histogram array `intra[i][j][bin]` is a function `Nat → Nat → Nat → ℚ`;
* the C histogram kernels `multiple_pairs_histograms_coords` and
  `full_pairs_histograms_coords` live in `fullrmc.Core.pairs_histograms`,
  outside the given sources; they are taken as an opaque, possibly failing
  parameter (`PairsHistKernel`).  Their configuration arguments that never
  vary across the calls of one constraint (basis, isPBC, molecule and element
  indexes, distance window, bin, ncores) are folded into the kernel value.
-/

/-- A single atom coordinate (`engine.boxCoordinates[i]`). -/
def Coord : Type := ℚ × ℚ × ℚ

instance : DecidableEq Coord := by
  unfold Coord
  infer_instance

/-- One pair histogram pair (`{"intra": ..., "inter": ...}` dictionaries):
`intra i j b` is the intramolecular count of the ordered element pair
`(i, j)` in distance bin `b`, `inter` the intermolecular one. -/
structure HistPair where
  intra : Nat → Nat → Nat → ℚ
  inter : Nat → Nat → Nat → ℚ

/-- Pointwise difference of histogram dictionaries, as in
`{"intra": intraM-intraF, "inter": interM-interF}`. -/
def HistPair.sub (x y : HistPair) : HistPair :=
  ⟨fun i j b => x.intra i j b - y.intra i j b,
   fun i j b => x.inter i j b - y.inter i j b⟩

/-- Pointwise sum of histogram dictionaries. -/
def HistPair.add (x y : HistPair) : HistPair :=
  ⟨fun i j b => x.intra i j b + y.intra i j b,
   fun i j b => x.inter i j b + y.inter i j b⟩

/-- Errors surfaced by a constraint evaluation: a failure raised inside one
of the external histogram kernels, or the `TypeError` Python would raise when
histogram arithmetic touches a `None` field. -/
inductive EvalError where
  | kernelFailure : Nat → EvalError
  | missingData : EvalError
deriving DecidableEq

/-- The external pair-histogram kernels of `fullrmc.Core.pairs_histograms`
(compiled code, not part of the given sources).  `multiple idx coords` models
`multiple_pairs_histograms_coords(indexes=idx, boxCoords=coords, ...,
allAtoms=True)`; `full idx coords` models
`full_pairs_histograms_coords(boxCoords=coords[idx], ...)` together with the
matching slices of the molecule/element index arrays.  Both return the
`(intra, inter)` pair and may raise. -/
structure PairsHistKernel where
  multiple : List Nat → (Nat → Coord) → Except EvalError HistPair
  full : List Nat → (Nat → Coord) → Except EvalError HistPair

/-- The read-only part of the owning engine consumed by the constraint,
plus the shared mutable coordinate store `boxCoordinates`. -/
structure Engine where
  boxCoordinates : Nat → Coord
  numberOfElements : Nat
  numberOfAtomsPerElement : Nat → Int
  allElements : Nat → Nat
  numberOfAtoms : Nat
  volume : ℚ
  numberDensity : ℚ
  accepted : Nat
  allowFittingScaleFactor : Bool

/-- The amputation staging dictionary
`{'data': ..., 'weightingScheme': ...}`. -/
structure AmputationData where
  data : HistPair
  weightingScheme : Nat → Nat → ℚ

/-- The mutable state of one `PairDistributionConstraint` instance.  The
string-keyed weighting dictionary (looked up under `"el1-el2"` with fallback
to `"el2-el1"`) is modelled as a function on the ordered index pair as it
appears in `elementsPairs`. -/
structure PDCState where
  data : Option HistPair
  originalData : Option HistPair
  activeAtomsDataBeforeMove : Option HistPair
  activeAtomsDataAfterMove : Option HistPair
  standardError : Option ℚ
  afterMoveStandardError : Option ℚ
  amputationData : Option AmputationData
  amputationStandardError : Option ℚ
  scaleFactor : ℚ
  fittedScaleFactor : ℚ
  adjustScaleFactorFrequency : Nat
  adjustScaleFactorMinimum : ℚ
  adjustScaleFactorMaximum : ℚ
  weightingScheme : Nat → Nat → ℚ
  elementsWeight : Nat → ℚ
  histogramSize : Nat
  shellCenters : Nat → ℚ
  shellVolumes : Nat → ℚ
  experimentalPDF : Nat → ℚ
  usedDataWeights : Option (Nat → ℚ)
  windowFunction : Option (List ℚ)
  shapeArray : Option (Nat → ℚ)

/-- The engine together with one constraint instance. -/
structure RunState where
  engine : Engine
  cons : PDCState

/-- `fullrmc.Globals.PI`, a fixed numeric constant. -/
def PI : ℚ := 3.141592653589793

/-- `sorted(itertools.combinations_with_replacement(self.engine.elements, 2))`
with elements identified with their indices `0, ..., nE-1`: all ordered pairs
`(i, j)` with `i ≤ j < nE`, in lexicographic order. -/
def elementsPairs (nE : Nat) : List (Nat × Nat) :=
  (List.range nE).flatMap (fun i => ((List.range nE).drop i).map (fun j => (i, j)))

/-- Overwriting a subset of the coordinate store:
`coords[indexes] = vals` (atom `i` of the subset receives `vals i`). -/
def writeCoords (coords : Nat → Coord) (indexes : List Nat) (vals : Nat → Coord) :
    Nat → Coord :=
  fun i => if i ∈ indexes then vals i else coords i

/-- `np.convolve(a, w, 'same')` for a length-`n` signal `a` and a kernel `w`
with `w.length ≤ n`: entry `k` of the centered slice of the full discrete
convolution, out-of-range signal entries counting as zero. -/
def convolveSame (n : Nat) (a : Nat → ℚ) (w : List ℚ) : Nat → ℚ :=
  let m := w.length
  fun k =>
    ((List.range m).map (fun j =>
      let i := k + (m - 1) / 2
      w.getD j 0 * (if i < j ∨ n ≤ i - j then 0 else a (i - j)))).sum

/-- Modelled from the spec: `fit_scale_factor` of the base
`ExperimentalConstraint` class (`fullrmc/Core/Constraint.py`) is not part of
the given sources.  Per the spec it is the analytic least-squares minimizer
`s = Σ Wᵢ·Yᵢ·Fᵢ / Σ Wᵢ·Fᵢ²` clamped to `[min, max]`, with all weights equal
to one when no data weights are set. -/
def fit_scale_factor (n : Nat) (Y F : Nat → ℚ) (W : Option (Nat → ℚ))
    (mn mx : ℚ) : ℚ :=
  let w : Nat → ℚ := W.getD (fun _ => 1)
  let num := ((List.range n).map (fun i => w i * Y i * F i)).sum
  let den := ((List.range n).map (fun i => w i * F i * F i)).sum
  max mn (min mx (num / den))

/-- Modelled from the spec: `get_adjusted_scale_factor` of the base
`ExperimentalConstraint` class is not part of the given sources.  Per the
spec the fit is applied only when the governing frequency counter indicates a
refit is due this step (`frequency ≠ 0` and the engine's accepted-move
counter is a multiple of it); otherwise the previously accepted scale factor
is reused unchanged, and `frequency = 0` means fixed (never refit). -/
def get_adjusted_scale_factor (eng : Engine) (c : PDCState) (Y F : Nat → ℚ) : ℚ :=
  if c.adjustScaleFactorFrequency ≠ 0 ∧
      eng.accepted % c.adjustScaleFactorFrequency = 0 then
    fit_scale_factor c.histogramSize Y F c.usedDataWeights
      c.adjustScaleFactorMinimum c.adjustScaleFactorMaximum
  else c.scaleFactor

/-- One element pair's contribution to the raw weighted pair-density sum of
`__get_total_Gr` (the loop body over `self.__elementsPairs`): for a self
pair the stored bin count is used once with `Nij = ni*(ni-1)/2`, for a hetero
pair both ordered storage slots are combined with `Nij = ni*nj`; either way
the contribution is `wij * nij / (Nij / volume)`. -/
def gr_pair_term (eng : Engine) (ws : Nat → Nat → ℚ) (data : HistPair)
    (p : Nat × Nat) (b : Nat) : ℚ :=
  let wij := ws p.1 p.2
  let ni := eng.numberOfAtomsPerElement p.1
  let nj := eng.numberOfAtomsPerElement p.2
  if p.1 = p.2 then
    let nij := (ni : ℚ) * ((ni : ℚ) - 1) / 2
    let dij := nij / eng.volume
    wij * (data.intra p.1 p.2 b + data.inter p.1 p.2 b) / dij
  else
    let nij := (ni : ℚ) * (nj : ℚ)
    let dij := nij / eng.volume
    wij * (data.intra p.1 p.2 b + data.intra p.2 p.1 b +
           data.inter p.1 p.2 b + data.inter p.2 p.1 b) / dij

/-- The raw accumulated `Gr` array of `__get_total_Gr` before the shell
volume division: the sum of all element-pair contributions at bin `b`. -/
def gr_raw (eng : Engine) (ws : Nat → Nat → ℚ) (data : HistPair) (b : Nat) : ℚ :=
  ((elementsPairs eng.numberOfElements).map
    (fun p => gr_pair_term eng ws data p b)).sum

/-- `PairDistributionConstraint.__get_total_Gr(data, rho0)`: divide the raw
pair sum by the shell volumes, apply `4·π·r·ρ₀·(g(r)-1)`, subtract the shape
array when present, fit the scale factor (also storing it into
`_fittedScaleFactor`, returned here as the first component), multiply when
the fit differs from one, and finally convolve with the window function when
present. -/
def get_total_Gr (eng : Engine) (c : PDCState) (data : HistPair) (rho0 : ℚ) :
    ℚ × (Nat → ℚ) :=
  let Gr1 : Nat → ℚ := fun b => gr_raw eng c.weightingScheme data b / c.shellVolumes b
  let Gr2 : Nat → ℚ := fun b => 4 * PI * c.shellCenters b * rho0 * (Gr1 b - 1)
  let Gr3 : Nat → ℚ :=
    match c.shapeArray with
    | some sh => fun b => Gr2 b - sh b
    | none => Gr2
  let fitted := get_adjusted_scale_factor eng c c.experimentalPDF Gr3
  let Gr4 : Nat → ℚ := if fitted ≠ 1 then fun b => fitted * Gr3 b else Gr3
  let Gr5 : Nat → ℚ :=
    match c.windowFunction with
    | some w => convolveSame c.histogramSize Gr4 w
    | none => Gr4
  (fitted, Gr5)

/-- `PairDistributionConstraint.compute_standard_error(modelData)`: the
(optionally weighted) sum of squared deviations from the experimental data. -/
def compute_standard_error (c : PDCState) (modelData : Nat → ℚ) : ℚ :=
  match c.usedDataWeights with
  | none =>
      ((List.range c.histogramSize).map
        (fun i => (c.experimentalPDF i - modelData i) ^ 2)).sum
  | some w =>
      ((List.range c.histogramSize).map
        (fun i => w i * (c.experimentalPDF i - modelData i) ^ 2)).sum

/-- `PairDistributionConstraint.compute_before_move(realIndexes,
relativeIndexes)`: run the subset-vs-system kernel and the subset-only
kernel on the current coordinates, store their difference as the before-move
delta and clear the after-move delta. -/
def compute_before_move (K : PairsHistKernel) (sys : RunState)
    (relativeIndexes : List Nat) : Except EvalError RunState :=
  match K.multiple relativeIndexes sys.engine.boxCoordinates with
  | .error e => .error e
  | .ok hM =>
    match K.full relativeIndexes sys.engine.boxCoordinates with
    | .error e => .error e
    | .ok hF =>
      .ok { sys with cons := { sys.cons with
              activeAtomsDataBeforeMove := some (hM.sub hF),
              activeAtomsDataAfterMove := none } }

/-- `PairDistributionConstraint.compute_after_move(realIndexes,
relativeIndexes, movedBoxCoordinates)`: temporarily write the candidate
coordinates into the shared store, run both kernels, store the after-move
delta, write the saved coordinates back, then evaluate the hypothetical
histogram and stage the after-move standard error.  The function returns the
resulting state together with the error, when one was raised: a kernel
failure propagates out of the mutated-coordinates scope with no further
statement executed, exactly as a Python exception would. -/
def compute_after_move (K : PairsHistKernel) (sys : RunState)
    (relativeIndexes : List Nat) (movedBoxCoordinates : Nat → Coord) :
    RunState × Option EvalError :=
  let boxData := sys.engine.boxCoordinates
  let mutated := writeCoords sys.engine.boxCoordinates relativeIndexes movedBoxCoordinates
  let sysMut : RunState := { sys with engine := { sys.engine with boxCoordinates := mutated } }
  match K.multiple relativeIndexes mutated with
  | .error e => (sysMut, some e)
  | .ok hM =>
    match K.full relativeIndexes mutated with
    | .error e => (sysMut, some e)
    | .ok hF =>
      let afterDelta := hM.sub hF
      let sysAfter : RunState :=
        { sysMut with cons := { sysMut.cons with activeAtomsDataAfterMove := some afterDelta } }
      let restored := writeCoords mutated relativeIndexes boxData
      let sysRestored : RunState :=
        { sysAfter with engine := { sysAfter.engine with boxCoordinates := restored } }
      match sysRestored.cons.data, sysRestored.cons.activeAtomsDataBeforeMove with
      | some d, some b =>
        let hypo := (d.sub b).add afterDelta
        let fg := get_total_Gr sysRestored.engine sysRestored.cons hypo
                    sysRestored.engine.numberDensity
        ({ sysRestored with cons := { sysRestored.cons with
             fittedScaleFactor := fg.1,
             afterMoveStandardError := some (compute_standard_error sysRestored.cons fg.2) } },
         none)
      | _, _ => (sysRestored, some .missingData)

/-- Modelled from the spec: `_set_fitted_scale_factor_value` of the base
`ExperimentalConstraint` class is not part of the given sources; per the
spec, commit adopts any newly fitted scale factor as the accepted one. -/
def set_fitted_scale_factor_value (c : PDCState) (v : ℚ) : PDCState :=
  { c with scaleFactor := v }

/-- `PairDistributionConstraint.accept_move(realIndexes, relativeIndexes)`:
replace the committed data by `data - beforeDelta + afterDelta`, clear both
deltas, adopt the staged standard error, and adopt the fitted scale factor.
`none` models the `TypeError` Python would raise when a delta is `None`. -/
def accept_move (sys : RunState) : Option RunState :=
  match sys.cons.data, sys.cons.activeAtomsDataBeforeMove,
        sys.cons.activeAtomsDataAfterMove with
  | some d, some b, some a =>
    let c1 := { sys.cons with
      data := some ((d.sub b).add a),
      activeAtomsDataBeforeMove := none,
      activeAtomsDataAfterMove := none,
      standardError := sys.cons.afterMoveStandardError,
      afterMoveStandardError := none }
    some { sys with cons := set_fitted_scale_factor_value c1 sys.cons.fittedScaleFactor }
  | _, _, _ => none

/-- `PairDistributionConstraint.reject_move(realIndexes, relativeIndexes)`:
clear both deltas and the staged after-move standard error; nothing else. -/
def reject_move (sys : RunState) : RunState :=
  { sys with cons := { sys.cons with
      activeAtomsDataBeforeMove := none,
      activeAtomsDataAfterMove := none,
      afterMoveStandardError := none } }

/-- `PairDistributionConstraint.compute_as_if_amputated(realIndex,
relativeIndex)`: stage the before-move delta of the singleton subset, form
the reduced histogram `data - delta`, decrement the selected atom's element
population, recompute the weighting scheme against the reduced population
(via the external `get_normalized_weighting`, passed as `gnw`), suppress
scale-factor fitting when the move generator disallows it, evaluate the
observable with `ρ₀ = (N-1)/V` and its standard error, stage both as the
amputation data, then restore the weighting scheme, the fit frequency and
the population. -/
def compute_as_if_amputated (gnw : (Nat → Int) → (Nat → ℚ) → Nat → Nat → ℚ)
    (K : PairsHistKernel) (sys : RunState) (relativeIndex : Nat) :
    Except EvalError RunState :=
  match compute_before_move K sys [relativeIndex] with
  | .error e => .error e
  | .ok s1 =>
    match s1.cons.data, s1.cons.activeAtomsDataBeforeMove with
    | some d, some b =>
      let rdata := d.sub b
      let savedWS := s1.cons.weightingScheme
      let selectedElement := s1.engine.allElements relativeIndex
      let popDec : Nat → Int := fun e =>
        if e = selectedElement then s1.engine.numberOfAtomsPerElement e - 1
        else s1.engine.numberOfAtomsPerElement e
      let wsNew := gnw popDec s1.cons.elementsWeight
      let savedFreq := s1.cons.adjustScaleFactorFrequency
      let freqTmp := if s1.engine.allowFittingScaleFactor then savedFreq else 0
      let engTmp := { s1.engine with numberOfAtomsPerElement := popDec }
      let consTmp := { s1.cons with
        weightingScheme := wsNew, adjustScaleFactorFrequency := freqTmp }
      let rho0 := ((s1.engine.numberOfAtoms : ℚ) - 1) / s1.engine.volume
      let fg := get_total_Gr engTmp consTmp rdata rho0
      let standardError := compute_standard_error consTmp fg.2
      let freqFinal := if s1.engine.allowFittingScaleFactor then freqTmp else savedFreq
      let popRestored : Nat → Int := fun e =>
        if e = selectedElement then popDec e + 1 else popDec e
      .ok { engine := { engTmp with numberOfAtomsPerElement := popRestored },
            cons := { consTmp with
              weightingScheme := savedWS,
              adjustScaleFactorFrequency := freqFinal,
              activeAtomsDataBeforeMove := none,
              amputationData := some ⟨rdata, wsNew⟩,
              amputationStandardError := some standardError,
              fittedScaleFactor := fg.1 } }
    | _, _ => .error .missingData

/-- `PairDistributionConstraint.accept_amputation(realIndex, relativeIndex)`:
adopt the staged reduced histogram, weighting scheme, standard error and
fitted scale factor, and clear the amputation staging. -/
def accept_amputation (sys : RunState) : Option RunState :=
  match sys.cons.amputationData with
  | some amp =>
    let c1 := { sys.cons with
      data := some amp.data,
      weightingScheme := amp.weightingScheme,
      standardError := sys.cons.amputationStandardError,
      amputationData := none,
      amputationStandardError := none }
    some { sys with cons := set_fitted_scale_factor_value c1 sys.cons.fittedScaleFactor }
  | none => none

/-- `PairDistributionConstraint.reject_amputation(realIndex, relativeIndex)`:
clear the amputation staging; nothing else. -/
def reject_amputation (sys : RunState) : RunState :=
  { sys with cons := { sys.cons with
      amputationData := none,
      amputationStandardError := none } }

/-- The dictionary built by
`PairDistributionConstraint._get_constraint_value(data)`: the per-pair
entries keyed `rdf_intra_el1-el2`, `rdf_inter_el1-el2`, `rdf_total_el1-el2`
become functions of the ordered index pair, and the two global entries
`pdf_total` (scaled, before window convolution) and `pdf` (after window
convolution when a window is set) become named fields. -/
structure ConstraintValueOutput where
  rdf_intra : Nat → Nat → Nat → ℚ
  rdf_inter : Nat → Nat → Nat → ℚ
  rdf_total : Nat → Nat → Nat → ℚ
  pdf_total : Nat → ℚ
  pdf : Nat → ℚ

/-- The combined intramolecular bin count of `_get_constraint_value`:
stored once for a self pair, both ordered storage slots summed for a hetero
pair. -/
def combined_intra (data : HistPair) (i j b : Nat) : ℚ :=
  if i = j then data.intra i j b else data.intra i j b + data.intra j i b

/-- The combined intermolecular bin count of `_get_constraint_value`. -/
def combined_inter (data : HistPair) (i j b : Nat) : ℚ :=
  if i = j then data.inter i j b else data.inter i j b + data.inter j i b

/-- The expected pair count `Nij` of `_get_constraint_value` and
`__get_total_Gr`: `ni*(ni-1)/2` for a self pair, `ni*nj` for a hetero
pair. -/
def pair_Nij (eng : Engine) (i j : Nat) : ℚ :=
  let ni := eng.numberOfAtomsPerElement i
  let nj := eng.numberOfAtomsPerElement j
  if i = j then (ni : ℚ) * ((ni : ℚ) - 1) / 2 else (ni : ℚ) * (nj : ℚ)

/-- `PairDistributionConstraint._get_constraint_value(data)`: build all
partial radial distribution functions (scaled by the intensity factor
`V*wij/(Nij*shellVolume)`), accumulate the weighted `g(r)`, form the scaled
total `pdf_total = 4·π·r·ρ₀·(g(r)-1)` minus the optional shape array, times
the accepted scale factor when it differs from one, and set `pdf` to the
window convolution of `pdf_total` when a window is present, to `pdf_total`
itself otherwise. -/
def get_constraint_value_data (eng : Engine) (c : PDCState) (data : HistPair) :
    ConstraintValueOutput :=
  let intensityFactor : Nat → Nat → Nat → ℚ := fun i j b =>
    eng.volume * c.weightingScheme i j / (pair_Nij eng i j * c.shellVolumes b)
  let rdfIntra : Nat → Nat → Nat → ℚ := fun i j b =>
    combined_intra data i j b * intensityFactor i j b
  let rdfInter : Nat → Nat → Nat → ℚ := fun i j b =>
    combined_inter data i j b * intensityFactor i j b
  let gr : Nat → ℚ := fun b =>
    ((elementsPairs eng.numberOfElements).map (fun p =>
      let nij := combined_intra data p.1 p.2 b + combined_inter data p.1 p.2 b
      let dij := nij / c.shellVolumes b
      c.weightingScheme p.1 p.2 * dij / (pair_Nij eng p.1 p.2 / eng.volume))).sum
  let rho0 := eng.numberDensity
  let total0 : Nat → ℚ := fun b => 4 * PI * c.shellCenters b * rho0 * (gr b - 1)
  let total1 : Nat → ℚ :=
    match c.shapeArray with
    | some sh => fun b => total0 b - sh b
    | none => total0
  let total2 : Nat → ℚ :=
    if c.scaleFactor ≠ 1 then fun b => total1 b * c.scaleFactor else total1
  let pdfCnv : Nat → ℚ :=
    match c.windowFunction with
    | some w => convolveSame c.histogramSize total2 w
    | none => total2
  { rdf_intra := rdfIntra,
    rdf_inter := rdfInter,
    rdf_total := fun i j b => rdfIntra i j b + rdfInter i j b,
    pdf_total := total2,
    pdf := pdfCnv }

/-- `PairDistributionConstraint.get_constraint_value()`: when the committed
data was never computed (`self.data is None`) the method logs a warning and
returns the empty dictionary `{}` (modelled as `none`); otherwise it returns
`_get_constraint_value(self.data)`. -/
def get_constraint_value (sys : RunState) : Option ConstraintValueOutput :=
  match sys.cons.data with
  | none => none
  | some d => some (get_constraint_value_data sys.engine sys.cons d)

/-- `PairDistributionConstraint.compute_and_set_standard_error()`: read the
`pdf_total` entry of `get_constraint_value()` and store its squared
deviation from the experimental data as the committed standard error
(`none` models the `KeyError` on the empty dictionary). -/
def compute_and_set_standard_error (sys : RunState) : Option RunState :=
  match get_constraint_value sys with
  | none => none
  | some out =>
    some { sys with cons := { sys.cons with
      standardError := some (compute_standard_error sys.cons out.pdf_total) } }

/-- `StructureFactorConstraint._get_Sq_from_Gr(Gr)`:
`np.sum(Gr.reshape((-1,1)) * Gr2SqMatrix, axis=0) + 1` for a length-`n`
real-space array `Gr` and the precomputed sine-transform matrix
`M r q`. -/
def get_Sq_from_Gr (n : Nat) (M : Nat → Nat → ℚ) (Gr : Nat → ℚ) : Nat → ℚ :=
  fun q => (((List.range n).map (fun r => Gr r * M r q)).sum) + 1

/-- `ReducedStructureFactorConstraint._get_Sq_from_Gr(Gr)`: the same sum
against the same transform matrix, without the trailing `+ 1`. -/
def reduced_get_Sq_from_Gr (n : Nat) (M : Nat → Nat → ℚ) (Gr : Nat → ℚ) : Nat → ℚ :=
  fun q => ((List.range n).map (fun r => Gr r * M r q)).sum

/-- Follows the spec's words (refinement side of claim C8): the physical
count of an unordered element pair `(i, j)` with `i ≠ j` combines both
ordered storage slots of the intra and inter arrays, while a self pair is
stored once and not doubled. -/
def physicalPairCount (data : HistPair) (i j b : Nat) : ℚ :=
  if i = j then data.intra i i b + data.inter i i b
  else data.intra i j b + data.intra j i b + data.inter i j b + data.inter j i b

/-- Follows the spec's words (refinement side of claim C8): the expected
pair count is `Nᵢ·(Nᵢ-1)/2` for a self pair and `Nᵢ·Nⱼ` for a hetero
pair. -/
def expectedPairCount (pop : Nat → Int) (i j : Nat) : ℚ :=
  if i = j then (pop i : ℚ) * ((pop i : ℚ) - 1) / 2
  else (pop i : ℚ) * (pop j : ℚ)

/-- One step of the move lifecycle, as driven by the owning engine. -/
inductive MoveOp where
  | beforeMove : List Nat → MoveOp
  | afterMove : List Nat → (Nat → Coord) → MoveOp
  | acceptMv : MoveOp
  | rejectMv : MoveOp

/-- Run one lifecycle step.  A step that raises (kernel failure, missing
staged data) leaves the constraint in whatever state the failing call
produced; for `compute_before_move` and `accept_move` that is the entry
state. -/
def runOp (K : PairsHistKernel) (sys : RunState) : MoveOp → RunState
  | .beforeMove idx =>
    match compute_before_move K sys idx with
    | .ok s => s
    | .error _ => sys
  | .afterMove idx moved => (compute_after_move K sys idx moved).1
  | .acceptMv =>
    match accept_move sys with
    | some s => s
    | none => sys
  | .rejectMv => reject_move sys

/-- Run a whole sequence of lifecycle steps. -/
def runOps (K : PairsHistKernel) (sys : RunState) (ops : List MoveOp) : RunState :=
  ops.foldl (runOp K) sys

/-! Concrete instances used by the witnesses and counterexamples. -/

/-- The all-zero histogram pair. -/
def histZero : HistPair := ⟨fun _ _ _ => 0, fun _ _ _ => 0⟩

/-- The all-one histogram pair. -/
def histOnes : HistPair := ⟨fun _ _ _ => 1, fun _ _ _ => 1⟩

/-- The all-two histogram pair. -/
def histTwos : HistPair := ⟨fun _ _ _ => 2, fun _ _ _ => 2⟩

/-- A histogram pair with no intramolecular and unit intermolecular counts. -/
def histInterOnly : HistPair := ⟨fun _ _ _ => 0, fun _ _ _ => 1⟩

/-- A sample engine: one element species, two atoms at the origin, unit
volume. -/
def engSample : Engine where
  boxCoordinates := fun _ => ((0 : ℚ), (0 : ℚ), (0 : ℚ))
  numberOfElements := 1
  numberOfAtomsPerElement := fun _ => 2
  allElements := fun _ => 0
  numberOfAtoms := 2
  volume := 1
  numberDensity := 2
  accepted := 0
  allowFittingScaleFactor := false

/-- A sample constraint state: committed data present, three bins, unit
shells and weights, fixed scale factor. -/
def consSample : PDCState where
  data := some histOnes
  originalData := none
  activeAtomsDataBeforeMove := none
  activeAtomsDataAfterMove := none
  standardError := some 7
  afterMoveStandardError := none
  amputationData := none
  amputationStandardError := none
  scaleFactor := 1
  fittedScaleFactor := 1
  adjustScaleFactorFrequency := 0
  adjustScaleFactorMinimum := 4/5
  adjustScaleFactorMaximum := 6/5
  weightingScheme := fun _ _ => 1
  elementsWeight := fun _ => 1
  histogramSize := 3
  shellCenters := fun _ => 1
  shellVolumes := fun _ => 1
  experimentalPDF := fun _ => 0
  usedDataWeights := none
  windowFunction := none
  shapeArray := none

/-- A sample run state. -/
def sysSample : RunState := ⟨engSample, consSample⟩

/-- A kernel that always succeeds with constant histograms. -/
def okKernel : PairsHistKernel := ⟨fun _ _ => .ok histTwos, fun _ _ => .ok histOnes⟩

/-- A kernel whose subset-vs-system call always raises. -/
def failKernel : PairsHistKernel :=
  ⟨fun _ _ => .error (.kernelFailure 0), fun _ _ => .error (.kernelFailure 0)⟩

/-- Sample candidate coordinates, distinct from the origin. -/
def movedSample : Nat → Coord := fun _ => ((1 : ℚ), (0 : ℚ), (0 : ℚ))

/-! Helper lemmas shared by the claim theorems. -/

/-- Writing the saved values back over a subset write restores the original
coordinate store exactly. -/
theorem writeCoords_restore (coords : Nat → Coord) (idx : List Nat)
    (vals : Nat → Coord) :
    writeCoords (writeCoords coords idx vals) idx coords = coords := by
  funext i
  by_cases h : i ∈ idx <;> simp [writeCoords, h]

/-- With a zero adjustment frequency the scale factor is never refit. -/
theorem get_adjusted_scale_factor_of_fixed (eng : Engine) (c : PDCState)
    (Y F : Nat → ℚ) (h : c.adjustScaleFactorFrequency = 0) :
    get_adjusted_scale_factor eng c Y F = c.scaleFactor := by
  simp [get_adjusted_scale_factor, h]

/-- With a zero adjustment frequency `__get_total_Gr` stores the current
scale factor as the fitted one. -/
theorem get_total_Gr_fst_of_fixed (eng : Engine) (c : PDCState)
    (data : HistPair) (rho0 : ℚ) (h : c.adjustScaleFactorFrequency = 0) :
    (get_total_Gr eng c data rho0).1 = c.scaleFactor := by
  simp only [get_total_Gr]
  exact get_adjusted_scale_factor_of_fixed _ _ _ _ h

/-- Unfolding `compute_before_move` on succeeding kernel calls. -/
theorem compute_before_move_ok (K : PairsHistKernel) (sys : RunState)
    (idx : List Nat) (hM hF : HistPair)
    (h1 : K.multiple idx sys.engine.boxCoordinates = .ok hM)
    (h2 : K.full idx sys.engine.boxCoordinates = .ok hF) :
    compute_before_move K sys idx = .ok { sys with cons := { sys.cons with
      activeAtomsDataBeforeMove := some (hM.sub hF),
      activeAtomsDataAfterMove := none } } := by
  unfold compute_before_move
  rw [h1, h2]

/-- The engine after the scoped mutation of `compute_after_move` has been
written and then written back: candidate coordinates in, saved coordinates
out. -/
def restoredEngine (eng : Engine) (idx : List Nat) (moved : Nat → Coord) : Engine :=
  { eng with boxCoordinates :=
      writeCoords (writeCoords eng.boxCoordinates idx moved) idx eng.boxCoordinates }

/-- A constraint state with the after-move delta staged. -/
def afterCons (c : PDCState) (delta : HistPair) : PDCState :=
  { c with activeAtomsDataAfterMove := some delta }

/-- The fitted-scale-factor/observable pair evaluated by the staging step of
`compute_after_move` on the hypothetical histogram
`data - beforeDelta + afterDelta`. -/
def afterFit (sys : RunState) (idx : List Nat) (moved : Nat → Coord)
    (d b delta : HistPair) : ℚ × (Nat → ℚ) :=
  get_total_Gr (restoredEngine sys.engine idx moved) (afterCons sys.cons delta)
    ((d.sub b).add delta) sys.engine.numberDensity

/-- Unfolding `compute_after_move` on the fully successful path: succeeding
kernel calls and both the committed data and the before-move delta
present. -/
theorem compute_after_move_ok (K : PairsHistKernel) (sys : RunState)
    (idx : List Nat) (moved : Nat → Coord) (d b hM hF : HistPair)
    (hd : sys.cons.data = some d)
    (hb : sys.cons.activeAtomsDataBeforeMove = some b)
    (h3 : K.multiple idx (writeCoords sys.engine.boxCoordinates idx moved) = .ok hM)
    (h4 : K.full idx (writeCoords sys.engine.boxCoordinates idx moved) = .ok hF) :
    compute_after_move K sys idx moved =
      ({ engine := restoredEngine sys.engine idx moved,
         cons := { afterCons sys.cons (hM.sub hF) with
           fittedScaleFactor := (afterFit sys idx moved d b (hM.sub hF)).1,
           afterMoveStandardError := some (compute_standard_error
             (afterCons sys.cons (hM.sub hF))
             (afterFit sys idx moved d b (hM.sub hF)).2) } },
       none) := by
  unfold compute_after_move
  simp only [afterFit, restoredEngine, afterCons, h3, h4, hd, hb]

/-! Claim theorems. -/

/-- C10: for every real-space input array, the reduced structure factor
transform equals the plain structure factor transform minus the constant 1
at every reciprocal sample point. -/
theorem reduced_Sq_is_Sq_minus_one (n : Nat) (M : Nat → Nat → ℚ)
    (Gr : Nat → ℚ) (q : Nat) :
    reduced_get_Sq_from_Gr n M Gr q = get_Sq_from_Gr n M Gr q - 1 := by
  simp [reduced_get_Sq_from_Gr, get_Sq_from_Gr]

/-- C9: on a constraint instance whose committed data was never computed,
`get_constraint_value` returns the empty dictionary (modelled as `none`)
rather than raising or returning partial results. -/
theorem get_constraint_value_empty_when_no_data (sys : RunState)
    (h : sys.cons.data = none) :
    get_constraint_value sys = none := by
  simp [get_constraint_value, h]

/-- Witness for C9 at a concrete never-computed state. -/
theorem get_constraint_value_empty_when_no_data_witness :
    ((⟨engSample, { consSample with data := none }⟩ : RunState)).cons.data = none ∧
    get_constraint_value ⟨engSample, { consSample with data := none }⟩ = none :=
  ⟨rfl, get_constraint_value_empty_when_no_data ⟨engSample, { consSample with data := none }⟩ rfl⟩

/-- C1: `accept_move` replaces the committed histogram data, in both its
intra and inter components, by exactly the previously committed data minus
the before-move delta plus the after-move delta of the in-flight
transaction, and clears both deltas. -/
theorem accept_move_commits_delta (sys : RunState) (d b a : HistPair)
    (hd : sys.cons.data = some d)
    (hb : sys.cons.activeAtomsDataBeforeMove = some b)
    (ha : sys.cons.activeAtomsDataAfterMove = some a) :
    ∃ s', accept_move sys = some s' ∧
      s'.cons.data = some ((d.sub b).add a) ∧
      (∀ i j k, ((d.sub b).add a).intra i j k =
        d.intra i j k - b.intra i j k + a.intra i j k) ∧
      (∀ i j k, ((d.sub b).add a).inter i j k =
        d.inter i j k - b.inter i j k + a.inter i j k) ∧
      s'.cons.activeAtomsDataBeforeMove = none ∧
      s'.cons.activeAtomsDataAfterMove = none := by
  have h : accept_move sys = some ⟨sys.engine, set_fitted_scale_factor_value
      ({ sys.cons with
        data := some ((d.sub b).add a),
        activeAtomsDataBeforeMove := none,
        activeAtomsDataAfterMove := none,
        standardError := sys.cons.afterMoveStandardError,
        afterMoveStandardError := none })
      sys.cons.fittedScaleFactor⟩ := by
    unfold accept_move
    rw [hd, hb, ha]
  exact ⟨_, h, rfl, fun _ _ _ => rfl, fun _ _ _ => rfl, rfl, rfl⟩

/-- Witness for C1 at a concrete in-flight transaction. -/
theorem accept_move_commits_delta_witness :
    (⟨engSample, { consSample with
        activeAtomsDataBeforeMove := some histOnes,
        activeAtomsDataAfterMove := some histTwos }⟩ : RunState).cons.data = some histOnes ∧
    (∃ s', accept_move ⟨engSample, { consSample with
        activeAtomsDataBeforeMove := some histOnes,
        activeAtomsDataAfterMove := some histTwos }⟩ = some s' ∧
      s'.cons.data = some ((histOnes.sub histOnes).add histTwos) ∧
      (∀ i j k, ((histOnes.sub histOnes).add histTwos).intra i j k =
        histOnes.intra i j k - histOnes.intra i j k + histTwos.intra i j k) ∧
      (∀ i j k, ((histOnes.sub histOnes).add histTwos).inter i j k =
        histOnes.inter i j k - histOnes.inter i j k + histTwos.inter i j k) ∧
      s'.cons.activeAtomsDataBeforeMove = none ∧
      s'.cons.activeAtomsDataAfterMove = none) :=
  ⟨rfl, accept_move_commits_delta _ histOnes histOnes histTwos rfl rfl rfl⟩

/-- C8: the transform's per-pair accumulation combines, for every element
pair, exactly the physical pair count of the spec (both ordered storage
slots summed for a hetero pair, the single stored slot for a self pair)
against the expected pair count (`Nᵢ(Nᵢ-1)/2` for self pairs, `Nᵢ·Nⱼ` for
hetero pairs) per volume, and the raw accumulated sum is the sum of those
contributions over all listed element pairs. -/
theorem gr_pair_combination_matches_spec (eng : Engine) (ws : Nat → Nat → ℚ)
    (data : HistPair) :
    (∀ p : Nat × Nat, ∀ b, gr_pair_term eng ws data p b =
        ws p.1 p.2 * physicalPairCount data p.1 p.2 b /
          (expectedPairCount eng.numberOfAtomsPerElement p.1 p.2 / eng.volume)) ∧
    (∀ b, gr_raw eng ws data b =
        ((elementsPairs eng.numberOfElements).map (fun p =>
          ws p.1 p.2 * physicalPairCount data p.1 p.2 b /
            (expectedPairCount eng.numberOfAtomsPerElement p.1 p.2 / eng.volume))).sum) := by
  have hpt : ∀ p : Nat × Nat, ∀ b, gr_pair_term eng ws data p b =
      ws p.1 p.2 * physicalPairCount data p.1 p.2 b /
        (expectedPairCount eng.numberOfAtomsPerElement p.1 p.2 / eng.volume) := by
    rintro ⟨i, j⟩ b
    by_cases h : i = j
    · subst h
      simp [gr_pair_term, physicalPairCount, expectedPairCount]
    · simp [gr_pair_term, physicalPairCount, expectedPairCount, h]
  refine ⟨hpt, fun b => ?_⟩
  unfold gr_raw
  exact congrArg List.sum (List.map_congr_left (fun p _ => hpt p b))

/-- C2 (amended): on every successful return of the stage step
`compute_after_move` — and the staged standard-error evaluation runs only
after the restoration — the shared engine coordinate store is restored to
its exact pre-call values for every atom.  (The unamended claim also covers
error exits; see the counterexample.) -/
theorem after_move_restores_coordinates_on_success (K : PairsHistKernel)
    (sys : RunState) (idx : List Nat) (moved : Nat → Coord)
    (h : (compute_after_move K sys idx moved).2 = none) :
    (compute_after_move K sys idx moved).1.engine.boxCoordinates =
      sys.engine.boxCoordinates := by
  unfold compute_after_move at h ⊢
  cases hM : K.multiple idx (writeCoords sys.engine.boxCoordinates idx moved) with
  | error e =>
    simp only [hM] at h
    exact Option.noConfusion h
  | ok m =>
    cases hF : K.full idx (writeCoords sys.engine.boxCoordinates idx moved) with
    | error e =>
      simp only [hM, hF] at h
      exact Option.noConfusion h
    | ok f =>
      cases hd : sys.cons.data with
      | none =>
        simp only [hM, hF, hd] at h
        exact Option.noConfusion h
      | some d =>
        cases hb : sys.cons.activeAtomsDataBeforeMove with
        | none =>
          simp only [hM, hF, hd, hb] at h
          exact Option.noConfusion h
        | some b =>
          simp only [hM, hF, hd, hb]
          exact writeCoords_restore sys.engine.boxCoordinates idx moved

/-- Witness for the amended C2 on a concrete successful stage step. -/
theorem after_move_restores_coordinates_on_success_witness :
    (compute_after_move okKernel
      ⟨engSample, { consSample with activeAtomsDataBeforeMove := some histOnes }⟩
      [0] movedSample).2 = none ∧
    (compute_after_move okKernel
      ⟨engSample, { consSample with activeAtomsDataBeforeMove := some histOnes }⟩
      [0] movedSample).1.engine.boxCoordinates =
      (⟨engSample, { consSample with activeAtomsDataBeforeMove := some histOnes }⟩ :
        RunState).engine.boxCoordinates :=
  ⟨rfl, after_move_restores_coordinates_on_success okKernel
    ⟨engSample, { consSample with activeAtomsDataBeforeMove := some histOnes }⟩
    [0] movedSample rfl⟩

/-- Counterexample to C2 as stated: when the histogram kernel raises inside
the mutated-coordinates scope, `compute_after_move` exits on the error path
with the candidate coordinates still written into the shared store — the
moved atom's stored coordinate differs from its pre-call value. -/
theorem after_move_error_path_not_restored :
    (compute_after_move failKernel
      ⟨engSample, { consSample with activeAtomsDataBeforeMove := some histOnes }⟩
      [0] movedSample).2 ≠ none ∧
    (compute_after_move failKernel
      ⟨engSample, { consSample with activeAtomsDataBeforeMove := some histOnes }⟩
      [0] movedSample).1.engine.boxCoordinates 0 ≠
      (⟨engSample, { consSample with activeAtomsDataBeforeMove := some histOnes }⟩ :
        RunState).engine.boxCoordinates 0 := by
  exact ⟨by decide, by decide⟩

/-- C3: after `compute_before_move` (begin), a successful
`compute_after_move` (stage) and `reject_move` (discard), the committed
histogram data and the committed standard error are identical to their
pre-transaction values, and `reject_move` changes nothing but clearing the
two in-flight deltas and the staged after-move standard error. -/
theorem begin_stage_discard_preserves_committed (K : PairsHistKernel)
    (sys : RunState) (idx : List Nat) (moved : Nat → Coord)
    (d mB fB mA fA : HistPair)
    (hd : sys.cons.data = some d)
    (h1 : K.multiple idx sys.engine.boxCoordinates = .ok mB)
    (h2 : K.full idx sys.engine.boxCoordinates = .ok fB)
    (h3 : K.multiple idx (writeCoords sys.engine.boxCoordinates idx moved) = .ok mA)
    (h4 : K.full idx (writeCoords sys.engine.boxCoordinates idx moved) = .ok fA) :
    ∃ s1 s2, compute_before_move K sys idx = .ok s1 ∧
      compute_after_move K s1 idx moved = (s2, none) ∧
      reject_move s2 = ⟨s2.engine, { s2.cons with
        activeAtomsDataBeforeMove := none,
        activeAtomsDataAfterMove := none,
        afterMoveStandardError := none }⟩ ∧
      (reject_move s2).cons.data = sys.cons.data ∧
      (reject_move s2).cons.standardError = sys.cons.standardError ∧
      (reject_move s2).engine.boxCoordinates = sys.engine.boxCoordinates := by
  refine ⟨_, _, compute_before_move_ok K sys idx mB fB h1 h2,
    compute_after_move_ok K _ idx moved d (mB.sub fB) mA fA hd rfl h3 h4,
    rfl, rfl, rfl, ?_⟩
  exact writeCoords_restore sys.engine.boxCoordinates idx moved

/-- Witness for C3 on a concrete successful transaction. -/
theorem begin_stage_discard_preserves_committed_witness :
    ∃ s1 s2, compute_before_move okKernel sysSample [0] = .ok s1 ∧
      compute_after_move okKernel s1 [0] movedSample = (s2, none) ∧
      reject_move s2 = ⟨s2.engine, { s2.cons with
        activeAtomsDataBeforeMove := none,
        activeAtomsDataAfterMove := none,
        afterMoveStandardError := none }⟩ ∧
      (reject_move s2).cons.data = sysSample.cons.data ∧
      (reject_move s2).cons.standardError = sysSample.cons.standardError ∧
      (reject_move s2).engine.boxCoordinates = sysSample.engine.boxCoordinates :=
  begin_stage_discard_preserves_committed okKernel sysSample [0] movedSample
    histOnes histTwos histOnes histTwos histOnes rfl rfl rfl rfl rfl

/-- The per-element populations after the amputation evaluator's temporary
decrement of the selected atom's element. -/
def amputation_decremented_pop (sys : RunState) (i : Nat) : Nat → Int :=
  fun e =>
    if e = sys.engine.allElements i then sys.engine.numberOfAtomsPerElement e - 1
    else sys.engine.numberOfAtomsPerElement e

/-- The adjustment frequency in force during the amputation evaluation:
suppressed to 0 unless the move generator allows fitting the scale factor. -/
def amputation_freq_tmp (sys : RunState) : Nat :=
  if sys.engine.allowFittingScaleFactor then sys.cons.adjustScaleFactorFrequency else 0

/-- The engine as seen by the transform during the amputation evaluation:
populations temporarily decremented. -/
def amputation_tmp_engine (sys : RunState) (i : Nat) : Engine :=
  { sys.engine with numberOfAtomsPerElement := amputation_decremented_pop sys i }

/-- The constraint state as seen by the transform during the amputation
evaluation: before-move delta staged, weighting scheme recomputed against
the reduced populations, fit frequency possibly suppressed. -/
def amputation_tmp_cons (gnw : (Nat → Int) → (Nat → ℚ) → Nat → Nat → ℚ)
    (sys : RunState) (i : Nat) (delta : HistPair) : PDCState :=
  { sys.cons with
    activeAtomsDataBeforeMove := some delta,
    activeAtomsDataAfterMove := none,
    weightingScheme := gnw (amputation_decremented_pop sys i) sys.cons.elementsWeight,
    adjustScaleFactorFrequency := amputation_freq_tmp sys }

/-- The per-element populations after the amputation evaluator's closing
increment, which undoes the temporary decrement. -/
def amputation_restored_pop (sys : RunState) (i : Nat) : Nat → Int :=
  fun e =>
    if e = sys.engine.allElements i then amputation_decremented_pop sys i e + 1
    else amputation_decremented_pop sys i e

/-- The closing increment exactly undoes the decrement. -/
theorem amputation_restored_pop_eq (sys : RunState) (i : Nat) :
    amputation_restored_pop sys i = sys.engine.numberOfAtomsPerElement := by
  funext e
  by_cases h : e = sys.engine.allElements i
  · simp only [amputation_restored_pop, amputation_decremented_pop, h, if_true,
      eq_self_iff_true, if_pos]
    omega
  · simp [amputation_restored_pop, amputation_decremented_pop, h]

/-- Unfolding `compute_as_if_amputated` on the successful path: succeeding
kernel calls and committed data present. -/
theorem compute_as_if_amputated_ok (gnw : (Nat → Int) → (Nat → ℚ) → Nat → Nat → ℚ)
    (K : PairsHistKernel) (sys : RunState) (i : Nat) (d hM hF : HistPair)
    (hd : sys.cons.data = some d)
    (h1 : K.multiple [i] sys.engine.boxCoordinates = .ok hM)
    (h2 : K.full [i] sys.engine.boxCoordinates = .ok hF) :
    compute_as_if_amputated gnw K sys i = .ok
      ⟨{ amputation_tmp_engine sys i with
         numberOfAtomsPerElement := amputation_restored_pop sys i },
       { amputation_tmp_cons gnw sys i (hM.sub hF) with
         weightingScheme := sys.cons.weightingScheme,
         adjustScaleFactorFrequency :=
           if sys.engine.allowFittingScaleFactor then amputation_freq_tmp sys
           else sys.cons.adjustScaleFactorFrequency,
         activeAtomsDataBeforeMove := none,
         amputationData := some ⟨d.sub (hM.sub hF),
           gnw (amputation_decremented_pop sys i) sys.cons.elementsWeight⟩,
         amputationStandardError := some (compute_standard_error
           (amputation_tmp_cons gnw sys i (hM.sub hF))
           (get_total_Gr (amputation_tmp_engine sys i)
             (amputation_tmp_cons gnw sys i (hM.sub hF))
             (d.sub (hM.sub hF))
             (((sys.engine.numberOfAtoms : ℚ) - 1) / sys.engine.volume)).2),
         fittedScaleFactor :=
           (get_total_Gr (amputation_tmp_engine sys i)
             (amputation_tmp_cons gnw sys i (hM.sub hF))
             (d.sub (hM.sub hF))
             (((sys.engine.numberOfAtoms : ℚ) - 1) / sys.engine.volume)).1 }⟩ := by
  unfold compute_as_if_amputated
  rw [compute_before_move_ok K sys [i] hM hF h1 h2]
  simp only [amputation_tmp_engine, amputation_tmp_cons, amputation_restored_pop,
    amputation_decremented_pop, amputation_freq_tmp, hd]
  rfl

/-- C4: `compute_as_if_amputated` followed by `reject_amputation` leaves the
committed histogram data, the weighting scheme and the per-element atom
populations identical to their pre-call values, and clears the staged
amputation data. -/
theorem amputation_reject_preserves_state
    (gnw : (Nat → Int) → (Nat → ℚ) → Nat → Nat → ℚ) (K : PairsHistKernel)
    (sys : RunState) (i : Nat) (d hM hF : HistPair)
    (hd : sys.cons.data = some d)
    (h1 : K.multiple [i] sys.engine.boxCoordinates = .ok hM)
    (h2 : K.full [i] sys.engine.boxCoordinates = .ok hF) :
    ∃ s', compute_as_if_amputated gnw K sys i = .ok s' ∧
      (reject_amputation s').cons.data = sys.cons.data ∧
      (reject_amputation s').cons.weightingScheme = sys.cons.weightingScheme ∧
      (reject_amputation s').engine.numberOfAtomsPerElement =
        sys.engine.numberOfAtomsPerElement ∧
      (reject_amputation s').cons.amputationData = none ∧
      (reject_amputation s').cons.amputationStandardError = none := by
  refine ⟨_, compute_as_if_amputated_ok gnw K sys i d hM hF hd h1 h2,
    rfl, rfl, ?_, rfl, rfl⟩
  exact amputation_restored_pop_eq sys i

/-- C5: `compute_as_if_amputated` stages as amputation data the reduced
histogram `data - beforeDelta` of the singleton subset together with the
weighting scheme recomputed from the populations with the selected atom's
element decremented by one, and stages the standard error of the observable
recomputed with `ρ₀ = (N-1)/V` — all without mutating the committed
histogram data. -/
theorem amputation_stages_reduced_evaluation
    (gnw : (Nat → Int) → (Nat → ℚ) → Nat → Nat → ℚ) (K : PairsHistKernel)
    (sys : RunState) (i : Nat) (d hM hF : HistPair)
    (hd : sys.cons.data = some d)
    (h1 : K.multiple [i] sys.engine.boxCoordinates = .ok hM)
    (h2 : K.full [i] sys.engine.boxCoordinates = .ok hF) :
    ∃ s', compute_as_if_amputated gnw K sys i = .ok s' ∧
      s'.cons.amputationData = some ⟨d.sub (hM.sub hF),
        gnw (amputation_decremented_pop sys i) sys.cons.elementsWeight⟩ ∧
      s'.cons.amputationStandardError = some (compute_standard_error
        (amputation_tmp_cons gnw sys i (hM.sub hF))
        (get_total_Gr (amputation_tmp_engine sys i)
          (amputation_tmp_cons gnw sys i (hM.sub hF))
          (d.sub (hM.sub hF))
          (((sys.engine.numberOfAtoms : ℚ) - 1) / sys.engine.volume)).2) ∧
      s'.cons.data = sys.cons.data :=
  ⟨_, compute_as_if_amputated_ok gnw K sys i d hM hF hd h1 h2, rfl, rfl, rfl⟩

/-- A concrete stand-in for the external `get_normalized_weighting`. -/
def gnwSample : (Nat → Int) → (Nat → ℚ) → Nat → Nat → ℚ := fun _ _ _ _ => 1

/-- Witness for C4 on a concrete amputation evaluation. -/
theorem amputation_reject_preserves_state_witness :
    ∃ s', compute_as_if_amputated gnwSample okKernel sysSample 0 = .ok s' ∧
      (reject_amputation s').cons.data = sysSample.cons.data ∧
      (reject_amputation s').cons.weightingScheme = sysSample.cons.weightingScheme ∧
      (reject_amputation s').engine.numberOfAtomsPerElement =
        sysSample.engine.numberOfAtomsPerElement ∧
      (reject_amputation s').cons.amputationData = none ∧
      (reject_amputation s').cons.amputationStandardError = none :=
  amputation_reject_preserves_state gnwSample okKernel sysSample 0
    histOnes histTwos histOnes rfl rfl rfl

/-- Witness for C5 on a concrete amputation evaluation. -/
theorem amputation_stages_reduced_evaluation_witness :
    ∃ s', compute_as_if_amputated gnwSample okKernel sysSample 0 = .ok s' ∧
      s'.cons.amputationData = some ⟨histOnes.sub (histTwos.sub histOnes),
        gnwSample (amputation_decremented_pop sysSample 0) sysSample.cons.elementsWeight⟩ ∧
      s'.cons.amputationStandardError = some (compute_standard_error
        (amputation_tmp_cons gnwSample sysSample 0 (histTwos.sub histOnes))
        (get_total_Gr (amputation_tmp_engine sysSample 0)
          (amputation_tmp_cons gnwSample sysSample 0 (histTwos.sub histOnes))
          (histOnes.sub (histTwos.sub histOnes))
          (((sysSample.engine.numberOfAtoms : ℚ) - 1) / sysSample.engine.volume)).2) ∧
      s'.cons.data = sysSample.cons.data :=
  amputation_stages_reduced_evaluation gnwSample okKernel sysSample 0
    histOnes histTwos histOnes rfl rfl rfl

/-- One lifecycle step never changes the accepted scale factor when the
adjustment frequency is zero, and keeps the fitted scale factor aligned with
it. -/
theorem runOp_fixed_scale (K : PairsHistKernel) (sys : RunState) (op : MoveOp)
    (h0 : sys.cons.adjustScaleFactorFrequency = 0)
    (hf : sys.cons.fittedScaleFactor = sys.cons.scaleFactor) :
    (runOp K sys op).cons.adjustScaleFactorFrequency = 0 ∧
    (runOp K sys op).cons.scaleFactor = sys.cons.scaleFactor ∧
    (runOp K sys op).cons.fittedScaleFactor = sys.cons.scaleFactor := by
  cases op with
  | beforeMove idx =>
    cases hM : K.multiple idx sys.engine.boxCoordinates with
    | error e =>
      simp only [runOp, compute_before_move, hM]
      exact ⟨h0, by simp, by simp [hf]⟩
    | ok m =>
      cases hF : K.full idx sys.engine.boxCoordinates with
      | error e =>
        simp only [runOp, compute_before_move, hM, hF]
        exact ⟨h0, by simp, by simp [hf]⟩
      | ok f =>
        simp only [runOp, compute_before_move, hM, hF]
        exact ⟨h0, by simp, by simp [hf]⟩
  | afterMove idx moved =>
    cases hM : K.multiple idx (writeCoords sys.engine.boxCoordinates idx moved) with
    | error e =>
      simp only [runOp, compute_after_move, hM]
      exact ⟨h0, by simp, by simp [hf]⟩
    | ok m =>
      cases hF : K.full idx (writeCoords sys.engine.boxCoordinates idx moved) with
      | error e =>
        simp only [runOp, compute_after_move, hM, hF]
        exact ⟨h0, by simp, by simp [hf]⟩
      | ok f =>
        cases hd : sys.cons.data with
        | none =>
          simp only [runOp, compute_after_move, hM, hF, hd]
          exact ⟨h0, by simp, by simp [hf]⟩
        | some d =>
          cases hb : sys.cons.activeAtomsDataBeforeMove with
          | none =>
            simp only [runOp, compute_after_move, hM, hF, hd, hb]
            exact ⟨h0, by simp, by simp [hf]⟩
          | some b =>
            simp only [runOp, compute_after_move, hM, hF, hd, hb]
            exact ⟨h0, by simp, get_total_Gr_fst_of_fixed _ _ _ _ h0⟩
  | acceptMv =>
    cases hd : sys.cons.data with
    | none =>
      simp only [runOp, accept_move, hd]
      exact ⟨h0, by simp, by simp [hf]⟩
    | some d =>
      cases hb : sys.cons.activeAtomsDataBeforeMove with
      | none =>
        simp only [runOp, accept_move, hd, hb]
        exact ⟨h0, by simp, by simp [hf]⟩
      | some b =>
        cases ha : sys.cons.activeAtomsDataAfterMove with
        | none =>
          simp only [runOp, accept_move, hd, hb, ha]
          exact ⟨h0, by simp, by simp [hf]⟩
        | some a =>
          simp only [runOp, accept_move, hd, hb, ha, set_fitted_scale_factor_value]
          exact ⟨h0, by simp [hf], by simp [hf]⟩
  | rejectMv =>
    simp only [runOp, reject_move]
    exact ⟨h0, by simp, by simp [hf]⟩

/-- Over any sequence of lifecycle steps, a zero adjustment frequency keeps
the accepted and fitted scale factors at their initial value. -/
theorem runOps_fixed_scale (K : PairsHistKernel) (ops : List MoveOp) :
    ∀ sys : RunState, sys.cons.adjustScaleFactorFrequency = 0 →
      sys.cons.fittedScaleFactor = sys.cons.scaleFactor →
      (runOps K sys ops).cons.scaleFactor = sys.cons.scaleFactor ∧
      (runOps K sys ops).cons.fittedScaleFactor = sys.cons.scaleFactor ∧
      (runOps K sys ops).cons.adjustScaleFactorFrequency = 0 := by
  induction ops with
  | nil => exact fun sys h0 hf => ⟨rfl, hf, h0⟩
  | cons op rest ih =>
    intro sys h0 hf
    obtain ⟨g0, g1, g2⟩ := runOp_fixed_scale K sys op h0 hf
    have gf : (runOp K sys op).cons.fittedScaleFactor = (runOp K sys op).cons.scaleFactor :=
      g2.trans g1.symm
    obtain ⟨r1, r2, r3⟩ := ih (runOp K sys op) g0 gf
    refine ⟨?_, ?_, r3⟩
    · exact r1.trans g1
    · exact r2.trans g1

/-- C6 (amended): every refit produced when one is due is clamped into the
configured bounds (provided `min ≤ max`); when no refit is due the
previously accepted scale factor is reused unchanged; and with adjustment
frequency 0 the accepted scale factor never changes from its initial value
across any sequence of move evaluations, accepts and rejects.  (The
unamended claim also asserts the scale factor itself always lies in
`[min, max]`, which fails for an out-of-bounds initial value that is never
refit; see the counterexample.) -/
theorem scale_factor_policy_amended (K : PairsHistKernel) (sys : RunState)
    (ops : List MoveOp) (eng : Engine) (c : PDCState) (Y F : Nat → ℚ) :
    (c.adjustScaleFactorFrequency ≠ 0 →
      eng.accepted % c.adjustScaleFactorFrequency = 0 →
      c.adjustScaleFactorMinimum ≤ c.adjustScaleFactorMaximum →
      c.adjustScaleFactorMinimum ≤ get_adjusted_scale_factor eng c Y F ∧
        get_adjusted_scale_factor eng c Y F ≤ c.adjustScaleFactorMaximum) ∧
    (¬ (c.adjustScaleFactorFrequency ≠ 0 ∧
        eng.accepted % c.adjustScaleFactorFrequency = 0) →
      get_adjusted_scale_factor eng c Y F = c.scaleFactor) ∧
    (sys.cons.adjustScaleFactorFrequency = 0 →
      sys.cons.fittedScaleFactor = sys.cons.scaleFactor →
      (runOps K sys ops).cons.scaleFactor = sys.cons.scaleFactor ∧
      (runOps K sys ops).cons.fittedScaleFactor = sys.cons.scaleFactor) := by
  refine ⟨?_, ?_, ?_⟩
  · intro hne hdue hmm
    have hcond : c.adjustScaleFactorFrequency ≠ 0 ∧
        eng.accepted % c.adjustScaleFactorFrequency = 0 := ⟨hne, hdue⟩
    simp only [get_adjusted_scale_factor, if_pos hcond, fit_scale_factor]
    constructor
    · exact le_max_left _ _
    · exact max_le hmm (min_le_left _ _)
  · intro hcond
    simp only [get_adjusted_scale_factor, if_neg hcond]
  · intro h0 hf
    obtain ⟨r1, r2, _⟩ := runOps_fixed_scale K ops sys h0 hf
    exact ⟨r1, r2⟩

/-- Witness for the amended C6: instantiated on a concrete fixed-frequency
constraint and a concrete op sequence. -/
theorem scale_factor_policy_amended_witness :
    sysSample.cons.adjustScaleFactorFrequency = 0 ∧
    (runOps okKernel sysSample
      [MoveOp.beforeMove [0], MoveOp.afterMove [0] movedSample,
       MoveOp.acceptMv, MoveOp.rejectMv]).cons.scaleFactor =
      sysSample.cons.scaleFactor :=
  ⟨rfl, ((scale_factor_policy_amended okKernel sysSample
    [MoveOp.beforeMove [0], MoveOp.afterMove [0] movedSample,
     MoveOp.acceptMv, MoveOp.rejectMv] engSample consSample
    (fun _ => 0) (fun _ => 0)).2.2 rfl rfl).1⟩

/-- Counterexample to C6 as stated: a constraint configured with scale
factor 5, bounds `[4/5, 6/5]` and adjustment frequency 0 keeps its scale
factor at 5 — outside the configured bounds — across a sequence of move
operations. -/
theorem scale_factor_bounds_cex :
    (runOps okKernel
      ⟨engSample, { consSample with scaleFactor := 5, fittedScaleFactor := 5 }⟩
      [MoveOp.beforeMove [0], MoveOp.afterMove [0] movedSample,
       MoveOp.acceptMv]).cons.scaleFactor = 5 ∧
    ¬ ((4 : ℚ)/5 ≤ (runOps okKernel
        ⟨engSample, { consSample with scaleFactor := 5, fittedScaleFactor := 5 }⟩
        [MoveOp.beforeMove [0], MoveOp.afterMove [0] movedSample,
         MoveOp.acceptMv]).cons.scaleFactor ∧
       (runOps okKernel
        ⟨engSample, { consSample with scaleFactor := 5, fittedScaleFactor := 5 }⟩
        [MoveOp.beforeMove [0], MoveOp.afterMove [0] movedSample,
         MoveOp.acceptMv]).cons.scaleFactor ≤ (6 : ℚ)/5) := by
  have h5 : (runOps okKernel
      ⟨engSample, { consSample with scaleFactor := 5, fittedScaleFactor := 5 }⟩
      [MoveOp.beforeMove [0], MoveOp.afterMove [0] movedSample,
       MoveOp.acceptMv]).cons.scaleFactor = 5 := by decide
  refine ⟨h5, ?_⟩
  rw [h5]
  norm_num

/-- A constraint state exhibiting the window-function divergence: committed
data with unit intermolecular counts (so the weighted `g(r)` is exactly 1),
a pure-shift window function and a shape array concentrating the observable
in the last bin. -/
def consC7 : PDCState := { consSample with
  data := some histInterOnly,
  windowFunction := some [0, 0, 1],
  shapeArray := some (fun b => if b = 2 then (-1 : ℚ) else 0) }

/-- The run state for the window-function divergence. -/
def sysC7 : RunState := ⟨engSample, consC7⟩

/-- C7: the claim says the convolved (smoothed) observable is the value
compared against experimental data in the standard-error computation.  The
runtime path (`__get_total_Gr`, used by `compute_data` and
`compute_after_move`) does convolve before comparing, and
`_get_constraint_value` retains the pre-convolution `pdf_total` separately
from the convolved `pdf`; but `compute_and_set_standard_error` reads the
`pdf_total` entry — the pre-convolution value — so at this concrete state it
stores standard error 1 while the convolved observable gives 0. -/
theorem compute_and_set_standard_error_ignores_window :
    ∃ out, get_constraint_value sysC7 = some out ∧
      compute_and_set_standard_error sysC7 = some ⟨sysC7.engine, { sysC7.cons with
        standardError := some (compute_standard_error sysC7.cons out.pdf_total) }⟩ ∧
      compute_standard_error sysC7.cons out.pdf_total = 1 ∧
      compute_standard_error sysC7.cons out.pdf = 0 := by
  refine ⟨_, rfl, rfl, ?_, ?_⟩ <;>
    norm_num [compute_standard_error, get_constraint_value_data, sysC7, consC7,
      consSample, engSample, histInterOnly, combined_intra, combined_inter,
      pair_Nij, elementsPairs, convolveSame, PI, List.range_succ]
